import Mathlib

/-!
Verification of the IndieStore storefront backend.

The repository has two route variants over a MongoDB document store:
* `src/main.py` (namespace `MainV`): synchronous pymongo routes.
* `src/backend/` (namespace `BackendV`): an async document-store adapter
  (`database.py`) plus routes (`backend/main.py`).

We embed both variants shallowly:
* documents are association lists `Dict` of string keys to `Value`s,
  Mongo `$set` semantics become `dset`/`setAll`;
* BSON `ObjectId` strings are 24-character hex strings, parsed by
  `parseObjectId` and produced by `encodeId`;
* the wall clock is a `Nat` instant; each `datetime.now()` read in the
  source appears as an explicit timestamp argument, with monotonicity
  hypotheses where the Python runtime guarantees them;
* prices and totals are rationals; Python `round(x, 2)` becomes `round2`
  (round half to even at two decimals);
* the Mongo query filters built by the two product-listing routes are
  evaluated directly as predicates on typed product records.
-/

set_option autoImplicit false

/-- An order line item as submitted by the caller: referenced product id,
positive quantity, and the unit price captured at order time. -/
structure OItem where
  product_id : String
  quantity : Nat
  price : ℚ
deriving DecidableEq, Repr

/-- A BSON-style document value. The documents this code stores only ever
hold scalars, timestamps, lists of strings, and lists of order items. -/
inductive Value where
  | str : String → Value
  | rat : ℚ → Value
  | nat : Nat → Value
  | bool : Bool → Value
  | time : Nat → Value
  | strList : List String → Value
  | items : List OItem → Value
deriving DecidableEq, Repr

/-- A schemaless document: an association list of field name to value,
keys unique in any document produced by the code. -/
def Dict : Type := List (String × Value)

instance : DecidableEq Dict := by unfold Dict; infer_instance

instance : Repr Dict := by unfold Dict; infer_instance

instance : Append Dict := ⟨fun a b => List.append a b⟩

/-- First value stored under key `k`, like Python `d.get(k)`. -/
def dget (d : Dict) (k : String) : Option Value :=
  match d with
  | [] => none
  | (k₀, v₀) :: rest => if k₀ = k then some v₀ else dget rest k

/-- Python `d[k] = v` / Mongo `$set` of a single field: replace the first
binding of `k`, or append one if absent. -/
def dset (d : Dict) (k : String) (v : Value) : Dict :=
  match d with
  | [] => [(k, v)]
  | (k₀, v₀) :: rest => if k₀ = k then (k₀, v) :: rest else (k₀, v₀) :: dset rest k v

/-- Mongo `update_one` `$set` with a whole payload: set each field in order. -/
def setAll (payload : Dict) (d : Dict) : Dict :=
  payload.foldl (fun acc kv => dset acc kv.1 kv.2) d

/-- The keys of a document. -/
def dkeys (d : Dict) : List String := d.map Prod.fst

/-! ### ObjectId strings

`bson.ObjectId(s)` accepts exactly the 24-character hexadecimal strings and
raises `InvalidId` on anything else. We model the native key as a `Nat`. -/

/-- Is `c` a hexadecimal digit? -/
def isHexDigit (c : Char) : Bool :=
  ('0' ≤ c && c ≤ '9') || ('a' ≤ c && c ≤ 'f') || ('A' ≤ c && c ≤ 'F')

/-- Numeric value of a hex digit. -/
def hexVal (c : Char) : Nat :=
  if '0' ≤ c && c ≤ '9' then c.toNat - '0'.toNat
  else if 'a' ≤ c && c ≤ 'f' then c.toNat - 'a'.toNat + 10
  else c.toNat - 'A'.toNat + 10

/-- Parse a string as a BSON ObjectId: 24 hex characters, read base 16.
`none` models bson's `InvalidId` exception. -/
def parseObjectId (s : String) : Option Nat :=
  if s.data.length = 24 ∧ s.data.all isHexDigit then
    some (s.data.foldl (fun a c => a * 16 + hexVal c) 0)
  else none

/-- The `k` low hex digits of `n`, most significant first. -/
def hexDigits : Nat → Nat → List Char
  | 0, _ => []
  | k + 1, n => hexDigits k (n / 16) ++ [Nat.digitChar (n % 16)]

/-- `str(ObjectId)`: the canonical 24-hex-digit string of a native key. -/
def encodeId (n : Nat) : String := String.mk (hexDigits 24 n)

/-! ### The collection state

`DB` is the state of one Mongo collection (`product` or `order`) together
with the latest wall-clock reading. Native keys are the `Nat` component;
`insert_one` assigns them in increasing order. -/

structure DB where
  docs : List (Nat × Dict)
  nextId : Nat
  clock : Nat
deriving DecidableEq, Repr

/-- Mongo `find_one({"_id": oid})`: the first document with the given key. -/
def findDoc : List (Nat × Dict) → Nat → Option Dict
  | [], _ => none
  | (i, d) :: rest, oid => if i = oid then some d else findDoc rest oid

/-- Mongo `update_one`: rewrite the first document with the given key. -/
def updateFirst (oid : Nat) (f : Dict → Dict) : List (Nat × Dict) → List (Nat × Dict)
  | [] => []
  | (i, d) :: rest =>
    if i = oid then (i, f d) :: rest else (i, d) :: updateFirst oid f rest

/-- Mongo `delete_one`: remove the first document with the given key. -/
def deleteFirst (oid : Nat) : List (Nat × Dict) → List (Nat × Dict)
  | [] => []
  | (i, d) :: rest => if i = oid then rest else (i, d) :: deleteFirst oid rest

/-- Result of one HTTP route: a payload or an HTTPException (status, detail). -/
inductive ApiResult (α : Type) where
  | ok : α → ApiResult α
  | err : Nat → String → ApiResult α
deriving DecidableEq, Repr

/-- The payload of a successful route result. -/
def okPayload : ApiResult Dict → Dict
  | .ok d => d
  | .err _ _ => []

/-- Order total as both variants compute it: sum over items of
`price * quantity`. -/
def orderTotal (items : List OItem) : ℚ :=
  (items.map (fun i => i.price * (i.quantity : ℚ))).sum

/-- Python `round` at integer precision: round half to even. -/
def roundHalfEven (x : ℚ) : ℤ :=
  if x - ⌊x⌋ < 1 / 2 then ⌊x⌋
  else if 1 / 2 < x - ⌊x⌋ then ⌊x⌋ + 1
  else if ⌊x⌋ % 2 = 0 then ⌊x⌋ else ⌊x⌋ + 1

/-- Python `round(x, 2)`. -/
def round2 (x : ℚ) : ℚ := (roundHalfEven (x * 100) : ℚ) / 100

/-! ### Backend variant: `src/backend/database.py` adapter -/

namespace BackendV

/-- `database.create_document`: stamp `created_at` and `updated_at` with the
same `datetime.utcnow()` reading `t`, `insert_one`, re-read the inserted
document and replace its native key with the string-encoded `id`. -/
def create_document (t : Nat) (data : Dict) (db : DB) : Dict × DB :=
  let d := dset (dset data "created_at" (.time t)) "updated_at" (.time t)
  let oid := db.nextId
  (dset d "id" (.str (encodeId oid)), ⟨db.docs ++ [(oid, d)], oid + 1, t⟩)

/-- `database.get_documents`: `find(filter_dict).limit(limit)` — the filter
is evaluated as a predicate on documents; Mongo treats `limit(0)` as
unlimited — then each document carries its string `id`. -/
def get_documents (pred : Dict → Bool) (limit : Nat) (db : DB) : List Dict :=
  let matched := db.docs.filter fun p => pred p.2
  let limited := if limit = 0 then matched else matched.take limit
  limited.map fun p => dset p.2 "id" (.str (encodeId p.1))

/-- `database.get_document`: `ObjectId(doc_id)` failure gives `None`;
otherwise `find_one` by native key, `None` when absent. -/
def get_document (doc_id : String) (db : DB) : Option Dict :=
  match parseObjectId doc_id with
  | none => none
  | some oid => (findDoc db.docs oid).map fun d => dset d "id" (.str (encodeId oid))

/-- `database.update_document`: `ObjectId` failure gives `None`; otherwise
stamp `updated_at` into the payload, `$set` it on the matching document,
and re-read through `get_document`. -/
def update_document (t : Nat) (doc_id : String) (data : Dict) (db : DB) :
    Option Dict × DB :=
  match parseObjectId doc_id with
  | none => (none, db)
  | some oid =>
    let data' := dset data "updated_at" (.time t)
    let db' : DB := ⟨updateFirst oid (setAll data') db.docs, db.nextId, t⟩
    (get_document doc_id db', db')

/-- `database.delete_document`: `ObjectId` failure gives `False`; otherwise
`delete_one` and report `deleted_count == 1`. -/
def delete_document (doc_id : String) (db : DB) : Bool × DB :=
  match parseObjectId doc_id with
  | none => (false, db)
  | some oid =>
    let db' : DB := ⟨deleteFirst oid db.docs, db.nextId, db.clock⟩
    (findDoc db.docs oid ≠ none, db')

/-- `POST /products` (backend variant). -/
def create_product (t : Nat) (payload : Dict) (db : DB) : ApiResult Dict × DB :=
  let (doc, db') := create_document t payload db
  (.ok doc, db')

/-- `GET /products/{product_id}` (backend variant). -/
def get_product (product_id : String) (db : DB) : ApiResult Dict :=
  match get_document product_id db with
  | none => .err 404 "Product not found"
  | some doc => .ok doc

/-- `PUT /products/{product_id}` (backend variant). -/
def update_product (t : Nat) (product_id : String) (payload : Dict) (db : DB) :
    ApiResult Dict × DB :=
  match update_document t product_id payload db with
  | (none, db') => (.err 404 "Product not found", db')
  | (some doc, db') => (.ok doc, db')

/-- `DELETE /products/{product_id}` (backend variant). -/
def delete_product (product_id : String) (db : DB) : ApiResult Dict × DB :=
  match delete_document product_id db with
  | (false, db') => (.err 404 "Product not found", db')
  | (true, db') => (.ok [("status", .str "deleted")], db')

/-- Request body of `POST /orders` (backend variant, `schemas.OrderCreate`):
the caller may supply any `status`, defaulting to `"pending"`. -/
structure OrderCreate where
  items : List OItem
  customer_name : String
  customer_email : String
  address : String
  status : String := "pending"
deriving DecidableEq, Repr

/-- `POST /orders` (backend variant): dump the payload, add the computed
`total`, and store through `create_document`. -/
def create_order (t : Nat) (o : OrderCreate) (db : DB) : ApiResult Dict × DB :=
  let data : Dict :=
    [("items", .items o.items), ("customer_name", .str o.customer_name),
     ("customer_email", .str o.customer_email), ("address", .str o.address),
     ("status", .str o.status), ("total", .rat (orderTotal o.items))]
  let (doc, db') := create_document t data db
  (.ok doc, db')

end BackendV

/-! ### `src/main.py` variant: synchronous routes on pymongo -/

namespace MainV

/-- `POST /products` (`src/main.py`): one `datetime.now` reading `t` stamps
both timestamps; insert, re-read, `to_str_id`. -/
def create_product (t : Nat) (payload : Dict) (db : DB) : ApiResult Dict × DB :=
  let d := dset (dset payload "created_at" (.time t)) "updated_at" (.time t)
  let oid := db.nextId
  (.ok (dset d "id" (.str (encodeId oid))), ⟨db.docs ++ [(oid, d)], oid + 1, t⟩)

/-- `GET /products/{product_id}` (`src/main.py`): unparseable ids give a
distinct 400, absent documents a 404. -/
def get_product (product_id : String) (db : DB) : ApiResult Dict :=
  match parseObjectId product_id with
  | none => .err 400 "Invalid product id"
  | some oid =>
    match findDoc db.docs oid with
    | none => .err 404 "Product not found"
    | some doc => .ok (dset doc "id" (.str (encodeId oid)))

/-- `PUT /products/{product_id}` (`src/main.py`): unparseable ids give 400;
otherwise stamp `updated_at`, `$set` the payload on the match, 404 when
`matched_count == 0`, else re-read and return. -/
def update_product (t : Nat) (product_id : String) (payload : Dict) (db : DB) :
    ApiResult Dict × DB :=
  match parseObjectId product_id with
  | none => (.err 400 "Invalid product id", db)
  | some oid =>
    let data := dset payload "updated_at" (.time t)
    let db' : DB := ⟨updateFirst oid (setAll data) db.docs, db.nextId, t⟩
    match findDoc db.docs oid with
    | none => (.err 404 "Product not found", db')
    | some old => (.ok (dset (setAll data old) "id" (.str (encodeId oid))), db')

/-- `DELETE /products/{product_id}` (`src/main.py`): unparseable ids give
400; `delete_one`, 404 when `deleted_count == 0`. -/
def delete_product (product_id : String) (db : DB) : ApiResult Dict × DB :=
  match parseObjectId product_id with
  | none => (.err 400 "Invalid product id", db)
  | some oid =>
    let db' : DB := ⟨deleteFirst oid db.docs, db.nextId, db.clock⟩
    if findDoc db.docs oid = none then (.err 404 "Product not found", db')
    else (.ok [("ok", .bool true)], db')

/-- Request body of `POST /orders` (`src/main.py`, `OrderIn`): it has no
`status` field at all. -/
structure OrderIn where
  items : List OItem
  customer_name : String
  customer_email : String
  address : String
deriving DecidableEq, Repr

/-- `POST /orders` (`src/main.py`): total accumulated over the items then
rounded to 2 decimals; `status` is the literal `"pending"`; `created_at`
and `updated_at` come from two separate `datetime.now` readings `t₁`, `t₂`. -/
def create_order (t₁ t₂ : Nat) (o : OrderIn) (db : DB) : ApiResult Dict × DB :=
  let data : Dict :=
    [("items", .items o.items), ("customer_name", .str o.customer_name),
     ("customer_email", .str o.customer_email), ("address", .str o.address),
     ("status", .str "pending"), ("total", .rat (round2 (orderTotal o.items))),
     ("created_at", .time t₁), ("updated_at", .time t₂)]
  let oid := db.nextId
  (.ok (dset data "id" (.str (encodeId oid))), ⟨db.docs ++ [(oid, data)], oid + 1, t₂⟩)

end MainV

/-! ### Typed products and the two listing filters -/

/-- A product record as stored in the `product` collection. -/
structure Product where
  name : String
  description : Option String
  price : ℚ
  images : List String
  categories : List String
  in_stock : Bool
  rating : ℚ
deriving DecidableEq, Repr

/-- A stored product document: native key, fields, timestamps. -/
structure PDoc where
  oid : Nat
  prod : Product
  created_at : Nat
  updated_at : Nat
deriving DecidableEq, Repr

/-- ASCII lower-casing of one character (the case folding `$options "i"`
performs on the ASCII queries and names this catalog uses). -/
def asciiLower (c : Char) : Char :=
  if 'A' ≤ c ∧ c ≤ 'Z' then Char.ofNat (c.toNat + 32) else c

/-- Lower-case a character list. -/
def lowerL (l : List Char) : List Char := l.map asciiLower

/-- Does `l` start with the pattern? -/
def startsWithL : List Char → List Char → Bool
  | _, [] => true
  | [], _ :: _ => false
  | c :: cs, d :: ds => c = d && startsWithL cs ds

/-- Does `l` contain `sub` as a contiguous run? -/
def hasSubstring : List Char → List Char → Bool
  | [], sub => sub.isEmpty
  | c :: cs, sub => startsWithL (c :: cs) sub || hasSubstring cs sub

/-- Case-insensitive substring test: Mongo `$regex` with `$options "i"`
applied to a literal pattern. -/
def containsCI (hay pat : String) : Bool :=
  hasSubstring (lowerL hay.data) (lowerL pat.data)

/-- Python truthiness of an optional query string: `None` and `""` are falsy. -/
def truthy : Option String → Bool
  | none => false
  | some s => s ≠ ""

/-- Python whitespace as stripped by `str.strip`. -/
def isSpaceChar (c : Char) : Bool :=
  c = ' ' || c = '\t' || c = '\n' || c = '\r' || c = '\x0b' || c = '\x0c'

/-- Python `s.strip()`. -/
def stripStr (s : String) : String :=
  String.mk (((s.data.dropWhile isSpaceChar).reverse.dropWhile isSpaceChar).reverse)

/-- Python `s.split(",")` (splitting an empty string gives `[""]`). -/
def splitCommaAux : List Char → List Char → List String
  | [], acc => [String.mk acc.reverse]
  | c :: cs, acc =>
    if c = ',' then String.mk acc.reverse :: splitCommaAux cs []
    else splitCommaAux cs (c :: acc)

/-- `[c.strip() for c in categories.split(",") if c.strip()]`. -/
def splitCats (s : String) : List String :=
  ((splitCommaAux s.data []).map stripStr).filter fun c => c ≠ ""

/-- The free-text condition of the `src/main.py` filter: `$or` over a
case-insensitive regex on `name` and on `description` (a missing
`description` matches nothing). -/
def qCondMain (q : Option String) (p : Product) : Bool :=
  if truthy q then
    containsCI p.name (q.getD "") ||
      (match p.description with
       | some d => containsCI d (q.getD "")
       | none => false)
  else true

/-- The category condition of the `src/main.py` filter: `if category: ...
elif categories: ...` — the single `category` pre-empts the list. -/
def catCondMain (category categories : Option String) (p : Product) : Bool :=
  if truthy category then p.categories.contains (category.getD "")
  else if truthy categories then
    let cats := splitCats (categories.getD "")
    if cats.isEmpty then true else cats.any fun c => p.categories.contains c
  else true

/-- The whole `src/main.py` product filter: distinct dict keys, so the
dimensions combine by Mongo's implicit AND. -/
def matchesMain (q category categories : Option String) (p : Product) : Bool :=
  qCondMain q p && catCondMain category categories p

/-- The `src/backend/main.py` product filter: the `q` part regexes `name`
only, and `category` and `categories` each contribute an independent part,
all parts joined with `$and`. -/
def matchesBackend (q category categories : Option String) (p : Product) : Bool :=
  (if truthy q then containsCI p.name (q.getD "") else true) &&
  (if truthy category then p.categories.contains (category.getD "") else true) &&
  (if truthy categories then
    (let cats := splitCats (categories.getD "")
     if cats.isEmpty then true else cats.any fun c => p.categories.contains c)
   else true)

/-- Modelled from the spec: §4.2's free-text rule, "matches if the product
name OR description contains `q` as a case-insensitive substring". Used to
compare the two source filters against the specified one. -/
def specQueryMatch (q : String) (p : Product) : Bool :=
  containsCI p.name q ||
    (match p.description with
     | some d => containsCI d q
     | none => false)

/-- Stable insertion for descending sort by `created_at`. -/
def insertByCreatedDesc (x : PDoc) : List PDoc → List PDoc
  | [] => [x]
  | y :: ys =>
    if y.created_at < x.created_at then x :: y :: ys
    else y :: insertByCreatedDesc x ys

/-- `sort("created_at", -1)`. -/
def sortByCreatedDesc : List PDoc → List PDoc
  | [] => []
  | x :: xs => insertByCreatedDesc x (sortByCreatedDesc xs)

namespace MainV

/-- `GET /products` (`src/main.py`): filter, then sort by `created_at`
descending, no limit of any kind. -/
def list_products (q category categories : Option String) (store : List PDoc) :
    List PDoc :=
  sortByCreatedDesc (store.filter fun p => matchesMain q category categories p.prod)

end MainV

namespace BackendV

/-- `GET /products` (backend variant): build the filter parts, then
`get_documents` with the caller's `limit` (default 50, `limit(0)` meaning
unlimited in Mongo). -/
def list_products (q category categories : Option String) (limit : Nat)
    (store : List PDoc) : List PDoc :=
  let matched := store.filter fun p => matchesBackend q category categories p.prod
  if limit = 0 then matched else matched.take limit

end BackendV

/-! ### Operation sequences over one collection (for the timestamp invariant)

The mutating operations the backend adapter exposes, each carrying the
`datetime.utcnow()` reading its call makes. -/

inductive Op where
  | create (t : Nat) (payload : Dict)
  | update (t : Nat) (id : String) (payload : Dict)
  | delete (id : String)

/-- State change of one adapter operation. -/
def applyOp (db : DB) : Op → DB
  | .create t payload => (BackendV.create_document t payload db).2
  | .update t id payload => (BackendV.update_document t id payload db).2
  | .delete id => (BackendV.delete_document id db).2

/-- State after a sequence of operations. -/
def applyOps (db : DB) (ops : List Op) : DB := ops.foldl applyOp db

/-- What the route layer guarantees about one operation: the clock reading
is monotone, and the (already validated) payload never carries the
store-managed fields — `ProductCreate`/`OrderCreate` dumps have distinct
keys and no `created_at`. -/
def WFOp (db : DB) : Op → Prop
  | .create t _ => db.clock ≤ t
  | .update t _ payload =>
      db.clock ≤ t ∧ "created_at" ∉ dkeys payload ∧ (dkeys payload).Nodup
  | .delete _ => True

/-- All operations of a sequence are well-formed in the states they meet. -/
def WFSeq : DB → List Op → Prop
  | _, [] => True
  | db, op :: ops => WFOp db op ∧ WFSeq (applyOp db op) ops

/-- The persistence invariant: keys are store-assigned (unique, below
`nextId`) and every record carries timestamps with
`created_at ≤ updated_at ≤ clock`. -/
def StoreInv (db : DB) : Prop :=
  (∀ p ∈ db.docs, p.1 < db.nextId) ∧
  (db.docs.map Prod.fst).Nodup ∧
  ∀ p ∈ db.docs, ∃ c u, dget p.2 "created_at" = some (.time c) ∧
    dget p.2 "updated_at" = some (.time u) ∧ c ≤ u ∧ u ≤ db.clock

/-! ## Lemmas -/

@[simp] theorem dget_nil (k : String) : dget [] k = none := rfl

@[simp] theorem dget_cons (k₀ k : String) (v₀ : Value) (rest : Dict) :
    dget ((k₀, v₀) :: rest) k = if k₀ = k then some v₀ else dget rest k := rfl

theorem dget_dset_same (d : Dict) (k : String) (v : Value) :
    dget (dset d k v) k = some v := by
  induction d with
  | nil => simp [dset]
  | cons hd tl ih =>
    obtain ⟨k₀, v₀⟩ := hd
    by_cases h : k₀ = k <;> simp [dset, dget_cons, h, ih]

theorem dget_dset_other (d : Dict) (k k' : String) (v : Value) (hne : k ≠ k') :
    dget (dset d k v) k' = dget d k' := by
  induction d with
  | nil => simp [dset, dget_cons, hne]
  | cons hd tl ih =>
    obtain ⟨k₀, v₀⟩ := hd
    by_cases h : k₀ = k
    · subst h; simp [dset, dget_cons, hne]
    · simp [dset, dget_cons, h, ih]

theorem dget_setAll_not_mem (payload d : Dict) (k : String)
    (h : k ∉ dkeys payload) : dget (setAll payload d) k = dget d k := by
  induction payload generalizing d with
  | nil => rfl
  | cons hd tl ih =>
    obtain ⟨k₀, v₀⟩ := hd
    simp only [dkeys, List.map_cons, List.mem_cons, not_or] at h
    simp only [setAll, List.foldl_cons]
    rw [show (List.foldl (fun acc kv => dset acc kv.1 kv.2) (dset d k₀ v₀) tl)
          = setAll tl (dset d k₀ v₀) from rfl]
    rw [ih (dset d k₀ v₀) (by simpa [dkeys] using h.2)]
    exact dget_dset_other d k₀ k v₀ (fun he => h.1 he.symm)

theorem dget_setAll_mem (payload d : Dict) (k : String)
    (hnd : (dkeys payload).Nodup) (hmem : dget payload k ≠ none) :
    dget (setAll payload d) k = dget payload k := by
  induction payload generalizing d with
  | nil => simp at hmem
  | cons hd tl ih =>
    obtain ⟨k₀, v₀⟩ := hd
    simp only [dkeys, List.map_cons, List.nodup_cons] at hnd
    by_cases h : k₀ = k
    · subst h
      simp only [setAll, List.foldl_cons]
      rw [show (List.foldl (fun acc kv => dset acc kv.1 kv.2) (dset d k₀ v₀) tl)
            = setAll tl (dset d k₀ v₀) from rfl]
      have hnot : k₀ ∉ dkeys tl := hnd.1
      rw [dget_setAll_not_mem tl (dset d k₀ v₀) k₀ hnot]
      simp [dget_cons, dget_dset_same]
    · simp only [dget_cons, h, if_false] at hmem ⊢
      simp only [setAll, List.foldl_cons]
      rw [show (List.foldl (fun acc kv => dset acc kv.1 kv.2) (dset d k₀ v₀) tl)
            = setAll tl (dset d k₀ v₀) from rfl]
      exact ih (dset d k₀ v₀) hnd.2 hmem

theorem hexDigits_length (k n : Nat) : (hexDigits k n).length = k := by
  induction k generalizing n with
  | zero => rfl
  | succ k ih => simp [hexDigits, ih]

theorem digitChar_hex (m : Nat) (h : m < 16) :
    isHexDigit (Nat.digitChar m) = true ∧ hexVal (Nat.digitChar m) = m := by
  revert h
  revert m
  decide

theorem hexDigits_all_hex (k n : Nat) : (hexDigits k n).all isHexDigit = true := by
  induction k generalizing n with
  | zero => rfl
  | succ k ih =>
    simp only [hexDigits, List.all_append, List.all_cons, List.all_nil, Bool.and_true,
      Bool.and_eq_true]
    exact ⟨ih _, (digitChar_hex _ (Nat.mod_lt _ (by norm_num))).1⟩

theorem hexDigits_foldl (k n : Nat) (hn : n < 16 ^ k) :
    (hexDigits k n).foldl (fun a c => a * 16 + hexVal c) 0 = n := by
  induction k generalizing n with
  | zero => simpa [hexDigits] using (Nat.lt_one_iff.mp (by simpa using hn)).symm
  | succ k ih =>
    have hdiv : n / 16 < 16 ^ k := by
      rw [Nat.div_lt_iff_lt_mul (by norm_num)]
      calc n < 16 ^ (k + 1) := hn
        _ = 16 ^ k * 16 := by ring
    simp only [hexDigits, List.foldl_append, List.foldl_cons, List.foldl_nil]
    rw [ih (n / 16) hdiv, (digitChar_hex (n % 16) (Nat.mod_lt _ (by norm_num))).2]
    omega

theorem parse_encodeId (n : Nat) (hn : n < 16 ^ 24) :
    parseObjectId (encodeId n) = some n := by
  unfold parseObjectId encodeId
  rw [if_pos ⟨hexDigits_length 24 n, hexDigits_all_hex 24 n⟩]
  exact congrArg some (hexDigits_foldl 24 n hn)

theorem findDoc_updateFirst_same (docs : List (Nat × Dict)) (oid : Nat) (f : Dict → Dict) :
    findDoc (updateFirst oid f docs) oid = (findDoc docs oid).map f := by
  induction docs with
  | nil => rfl
  | cons hd tl ih =>
    obtain ⟨i, d⟩ := hd
    by_cases h : i = oid <;> simp [updateFirst, findDoc, h, ih]

theorem findDoc_updateFirst_other (docs : List (Nat × Dict)) (oid oid' : Nat)
    (f : Dict → Dict) (hne : oid ≠ oid') :
    findDoc (updateFirst oid f docs) oid' = findDoc docs oid' := by
  induction docs with
  | nil => rfl
  | cons hd tl ih =>
    obtain ⟨i, d⟩ := hd
    by_cases h : i = oid
    · subst h; simp [updateFirst, findDoc, hne]
    · simp [updateFirst, findDoc, h, ih]

theorem deleteFirst_not_found (docs : List (Nat × Dict)) (oid : Nat)
    (h : findDoc docs oid = none) : deleteFirst oid docs = docs := by
  induction docs with
  | nil => rfl
  | cons hd tl ih =>
    obtain ⟨i, d⟩ := hd
    by_cases hi : i = oid
    · simp [findDoc, hi] at h
    · simp only [findDoc, if_neg hi] at h
      simp [deleteFirst, hi, ih h]

theorem findDoc_append_right (docs : List (Nat × Dict)) (oid : Nat) (d : Dict)
    (h : findDoc docs oid = none) :
    findDoc (docs ++ [(oid, d)]) oid = some d := by
  induction docs with
  | nil => simp [findDoc]
  | cons hd tl ih =>
    obtain ⟨i, d₀⟩ := hd
    by_cases hi : i = oid
    · simp [findDoc, hi] at h
    · simp only [findDoc, if_neg hi] at h
      simpa [findDoc, hi] using ih h

theorem insertByCreatedDesc_perm (x : PDoc) (l : List PDoc) :
    List.Perm (insertByCreatedDesc x l) (x :: l) := by
  induction l with
  | nil => rfl
  | cons y ys ih =>
    by_cases h : y.created_at < x.created_at
    · simp [insertByCreatedDesc, h]
    · simp only [insertByCreatedDesc, if_neg h]
      exact (ih.cons y).trans (List.Perm.swap x y ys)

theorem sortByCreatedDesc_perm (l : List PDoc) :
    List.Perm (sortByCreatedDesc l) l := by
  induction l with
  | nil => rfl
  | cons x xs ih =>
    exact (insertByCreatedDesc_perm x (sortByCreatedDesc xs)).trans (ih.cons x)

theorem mem_sortByCreatedDesc (p : PDoc) (l : List PDoc) :
    p ∈ sortByCreatedDesc l ↔ p ∈ l :=
  (sortByCreatedDesc_perm l).mem_iff

theorem length_sortByCreatedDesc (l : List PDoc) :
    (sortByCreatedDesc l).length = l.length :=
  (sortByCreatedDesc_perm l).length_eq

/-! ## Claims -/

/-- C10: in the `src/main.py` variant, every created order stores
`total = round(sum of price * quantity, 2)` and the literal status
`"pending"`, whatever `OrderIn` the caller submits (the request model has
no status field at all, as `MainV.OrderIn` shows). -/
theorem C10_main_order_rounded_total_and_pending_status
    (t₁ t₂ : Nat) (o : MainV.OrderIn) (db : DB) :
    dget (okPayload (MainV.create_order t₁ t₂ o db).1) "total"
      = some (.rat (round2 (orderTotal o.items))) ∧
    dget (okPayload (MainV.create_order t₁ t₂ o db).1) "status"
      = some (.str "pending") :=
  ⟨rfl, rfl⟩

/-- C7 counterexample: the claim says the stored total always equals the
item sum, but the `src/main.py` variant rounds: an order with a single
item of price 1.111 stores 1.11, not 1.111. -/
theorem C7_counterexample :
    dget (okPayload (MainV.create_order 0 0 ⟨[⟨"p1", 1, 1111/1000⟩], "n", "e", "a"⟩
        ⟨[], 0, 0⟩).1) "total" = some (.rat (111/100)) ∧
    orderTotal [⟨"p1", 1, 1111/1000⟩] = 1111/1000 ∧
    (111/100 : ℚ) ≠ 1111/1000 := by
  have h : dget (okPayload (MainV.create_order 0 0 ⟨[⟨"p1", 1, 1111/1000⟩], "n", "e", "a"⟩
      ⟨[], 0, 0⟩).1) "total" = some (.rat (round2 (orderTotal [⟨"p1", 1, 1111/1000⟩]))) := rfl
  refine ⟨?_, by norm_num [orderTotal], by norm_num⟩
  rw [h]
  norm_num [orderTotal, round2, roundHalfEven]

/-- C7 (amended): the backend variant stores the exact item sum as total;
the `src/main.py` variant stores the item sum rounded to 2 decimals; both
depend only on the submitted items (no product store is consulted), and on
the spec's example `[(qty 2, price 10.00), (qty 1, price 5.50)]` both store
exactly 25.50. -/
theorem C7_order_total (t t₁ t₂ : Nat) (o : BackendV.OrderCreate) (o' : MainV.OrderIn)
    (db db' : DB) :
    dget (okPayload (BackendV.create_order t o db).1) "total"
      = some (.rat (orderTotal o.items)) ∧
    dget (okPayload (MainV.create_order t₁ t₂ o' db').1) "total"
      = some (.rat (round2 (orderTotal o'.items))) ∧
    orderTotal [⟨"a", 2, 10⟩, ⟨"b", 1, 11/2⟩] = 51 / 2 ∧
    round2 (51 / 2) = 51 / 2 := by
  refine ⟨rfl, rfl, by norm_num [orderTotal], ?_⟩
  norm_num [round2, roundHalfEven]

/-- C2 counterexample: on a syntactically invalid identifier the backend
variant signals 404 NotFound (for get, update and delete alike), not a
distinct InvalidIdentifier error, refuting "never NotFound" for that
entry point. -/
theorem C2_counterexample :
    parseObjectId "zzz" = none ∧
    BackendV.get_product "zzz" ⟨[], 0, 0⟩ = .err 404 "Product not found" ∧
    BackendV.update_product 0 "zzz" [] ⟨[], 0, 0⟩
      = (.err 404 "Product not found", ⟨[], 0, 0⟩) ∧
    BackendV.delete_product "zzz" ⟨[], 0, 0⟩
      = (.err 404 "Product not found", ⟨[], 0, 0⟩) := by
  decide

/-- C2 (amended): on an unparseable identifier neither variant crashes;
the `src/main.py` routes signal the distinct 400 "Invalid product id" and
never 404, while the backend adapter returns `None`/`False` so its routes
signal the same 404 NotFound as for an absent record; the store is never
changed. -/
theorem C2_invalid_identifier (t : Nat) (s : String) (payload : Dict) (db : DB)
    (h : parseObjectId s = none) :
    MainV.get_product s db = .err 400 "Invalid product id" ∧
    MainV.update_product t s payload db = (.err 400 "Invalid product id", db) ∧
    MainV.delete_product s db = (.err 400 "Invalid product id", db) ∧
    BackendV.get_document s db = none ∧
    BackendV.update_document t s payload db = (none, db) ∧
    BackendV.delete_document s db = (false, db) ∧
    BackendV.get_product s db = .err 404 "Product not found" ∧
    BackendV.update_product t s payload db = (.err 404 "Product not found", db) ∧
    BackendV.delete_product s db = (.err 404 "Product not found", db) := by
  refine ⟨?_, ?_, ?_, ?_, ?_, ?_, ?_, ?_, ?_⟩ <;>
    simp [MainV.get_product, MainV.update_product, MainV.delete_product,
      BackendV.get_document, BackendV.update_document, BackendV.delete_document,
      BackendV.get_product, BackendV.update_product, BackendV.delete_product, h]

/-- C2 witness: the amended statement applied at the concrete unparseable
identifier "xyz" on an empty store. -/
theorem C2_invalid_identifier_witness :
    parseObjectId "xyz" = none ∧
    MainV.get_product "xyz" ⟨[], 0, 0⟩ = .err 400 "Invalid product id" :=
  ⟨by decide, (C2_invalid_identifier 0 "xyz" [] ⟨[], 0, 0⟩ (by decide)).1⟩

/-- C8: deleting a well-formed identifier whose record is already gone
returns the false success indicator (backend adapter), maps to 404 in both
route variants, never crashes, and leaves the store untouched. -/
theorem C8_second_delete_not_found (s : String) (oid : Nat) (db : DB)
    (hparse : parseObjectId s = some oid)
    (habsent : findDoc db.docs oid = none) :
    BackendV.delete_document s db = (false, db) ∧
    BackendV.delete_product s db = (.err 404 "Product not found", db) ∧
    MainV.delete_product s db = (.err 404 "Product not found", db) := by
  have hdel : deleteFirst oid db.docs = db.docs := deleteFirst_not_found _ _ habsent
  refine ⟨?_, ?_, ?_⟩ <;>
    simp [BackendV.delete_document, BackendV.delete_product, MainV.delete_product,
      hparse, habsent, hdel]

/-- C8 witness: a second delete of native key 0 (its canonical 24-hex
string) on a store that no longer holds it. -/
theorem C8_second_delete_not_found_witness :
    parseObjectId "000000000000000000000000" = some 0 ∧
    BackendV.delete_document "000000000000000000000000" ⟨[], 5, 7⟩ = (false, ⟨[], 5, 7⟩) :=
  ⟨by decide, (C8_second_delete_not_found "000000000000000000000000" 0 ⟨[], 5, 7⟩
      (by decide) rfl).1⟩

/-- C1 counterexample: a product whose description (but not name) contains
the query is required by the claim to be listed by both entry points, but
the backend variant's filter only regexes `name`, so its listing omits it
while the `src/main.py` listing returns it. -/
theorem C1_counterexample :
    specQueryMatch "vase"
      ⟨"Bamboo Serving Tray", some "a matte white vase", 1899, [], ["Kitchen"], true, 0⟩
      = true ∧
    MainV.list_products (some "vase") none none
      [⟨0, ⟨"Bamboo Serving Tray", some "a matte white vase", 1899, [], ["Kitchen"], true, 0⟩, 0, 0⟩]
      = [⟨0, ⟨"Bamboo Serving Tray", some "a matte white vase", 1899, [], ["Kitchen"], true, 0⟩, 0, 0⟩] ∧
    BackendV.list_products (some "vase") none none 50
      [⟨0, ⟨"Bamboo Serving Tray", some "a matte white vase", 1899, [], ["Kitchen"], true, 0⟩, 0, 0⟩]
      = [] := by
  decide

/-- C1 (amended): with a non-empty free-text query and no category inputs,
the `src/main.py` listing returns exactly the stored products whose name OR
description contains the query case-insensitively (the spec's rule), while
the backend listing returns exactly those whose NAME contains it — the
description is not searched there. -/
theorem C1_query_filter (q : String) (store : List PDoc) (p : PDoc) (hq : q ≠ "") :
    (p ∈ MainV.list_products (some q) none none store ↔
      p ∈ store ∧ specQueryMatch q p.prod = true) ∧
    (p ∈ BackendV.list_products (some q) none none 0 store ↔
      p ∈ store ∧ containsCI p.prod.name q = true) := by
  constructor
  · rw [MainV.list_products, mem_sortByCreatedDesc, List.mem_filter]
    simp [matchesMain, qCondMain, catCondMain, truthy, hq, specQueryMatch]
  · rw [BackendV.list_products]
    simp [List.mem_filter, matchesBackend, truthy, hq]

/-- C1 witness: the amended statement at the query "vase" over a one-product
store whose name matches. -/
theorem C1_query_filter_witness :
    (⟨0, ⟨"Ceramic Vase", none, 1, [], [], true, 0⟩, 0, 0⟩ : PDoc) ∈
      MainV.list_products (some "vase") none none
        [⟨0, ⟨"Ceramic Vase", none, 1, [], [], true, 0⟩, 0, 0⟩] :=
  ((C1_query_filter "vase" [⟨0, ⟨"Ceramic Vase", none, 1, [], [], true, 0⟩, 0, 0⟩]
      ⟨0, ⟨"Ceramic Vase", none, 1, [], [], true, 0⟩, 0, 0⟩ (by decide)).1).mpr
    ⟨by decide, by decide⟩

/-- C3 counterexample: with both `category="a"` and `categories="b"`
supplied, a product in category "a" only is listed by `src/main.py` (the
claimed behavior: `category` wins) but filtered out by the backend variant,
which applies both conditions conjunctively — so the claim fails for that
entry point. -/
theorem C3_counterexample :
    matchesMain none (some "a") (some "b") ⟨"x", none, 1, [], ["a"], true, 0⟩ = true ∧
    MainV.list_products none (some "a") (some "b")
        [⟨0, ⟨"x", none, 1, [], ["a"], true, 0⟩, 0, 0⟩]
      = [⟨0, ⟨"x", none, 1, [], ["a"], true, 0⟩, 0, 0⟩] ∧
    matchesBackend none (some "a") (some "b") ⟨"x", none, 1, [], ["a"], true, 0⟩ = false ∧
    BackendV.list_products none (some "a") (some "b") 50
        [⟨0, ⟨"x", none, 1, [], ["a"], true, 0⟩, 0, 0⟩]
      = [] := by
  decide

/-- C3 (amended): when a non-empty `category` is supplied, the
`src/main.py` filter ignores `categories` entirely (the `elif` branch),
whereas the backend filter applies the `category` condition AND the
`categories` condition conjunctively. -/
theorem C3_category_precedence (q category categories : Option String) (p : Product)
    (hc : truthy category = true) :
    matchesMain q category categories p = matchesMain q category none p ∧
    matchesBackend q category categories p
      = (matchesBackend q category none p && matchesBackend none none categories p) := by
  constructor
  · simp [matchesMain, catCondMain, hc]
  · simp [matchesBackend, truthy, Bool.and_assoc]

/-- C3 witness: the amended statement at `category="a"`, `categories="b"`
on a product categorized under "a" only. -/
theorem C3_category_precedence_witness :
    truthy (some "a") = true ∧
    matchesMain none (some "a") (some "b") ⟨"x", none, 1, [], ["a"], true, 0⟩
      = matchesMain none (some "a") none ⟨"x", none, 1, [], ["a"], true, 0⟩ :=
  ⟨by decide, (C3_category_precedence none (some "a") (some "b")
      ⟨"x", none, 1, [], ["a"], true, 0⟩ (by decide)).1⟩

/-- C6 counterexample: the `src/main.py` product listing has no limit
parameter at all — with six stored products and no filters it returns all
six records, so "limit=5 returns at most 5 records" fails for that entry
point (a `limit=5` query parameter is simply ignored by the route). -/
theorem C6_counterexample :
    (MainV.list_products none none none
      [⟨0, ⟨"a", none, 1, [], [], true, 0⟩, 0, 0⟩,
       ⟨1, ⟨"b", none, 1, [], [], true, 0⟩, 0, 0⟩,
       ⟨2, ⟨"c", none, 1, [], [], true, 0⟩, 0, 0⟩,
       ⟨3, ⟨"d", none, 1, [], [], true, 0⟩, 0, 0⟩,
       ⟨4, ⟨"e", none, 1, [], [], true, 0⟩, 0, 0⟩,
       ⟨5, ⟨"f", none, 1, [], [], true, 0⟩, 0, 0⟩]).length = 6 := by
  decide

/-- C6 (amended): the backend adapter's list operation and the backend
product listing return at most `limit` records for every positive `limit`
(the route's default is 50; Mongo's `limit(0)` is unlimited), while the
`src/main.py` listing accepts no limit and always returns every matching
record. -/
theorem C6_limit (pred : Dict → Bool) (limit : Nat) (db : DB)
    (q category categories : Option String) (store : List PDoc)
    (hl : 0 < limit) :
    (BackendV.get_documents pred limit db).length ≤ limit ∧
    (BackendV.list_products q category categories limit store).length ≤ limit ∧
    (MainV.list_products q category categories store).length
      = (store.filter fun p => matchesMain q category categories p.prod).length := by
  have hne : limit ≠ 0 := Nat.pos_iff_ne_zero.mp hl
  refine ⟨?_, ?_, ?_⟩
  · simp only [BackendV.get_documents, if_neg hne, List.length_map, List.length_take]
    omega
  · simp only [BackendV.list_products, if_neg hne, List.length_take]
    omega
  · exact length_sortByCreatedDesc _

/-- C6 witness: the amended statement at `limit = 5` on an empty store. -/
theorem C6_limit_witness :
    0 < 5 ∧ (BackendV.get_documents (fun _ => true) 5 ⟨[], 0, 0⟩).length ≤ 5 :=
  ⟨by decide, (C6_limit (fun _ => true) 5 ⟨[], 0, 0⟩ none none none [] (by decide)).1⟩

/-! ### Further dictionary and store lemmas (for C4, C5, C9) -/

theorem dkeys_nil : dkeys [] = [] := rfl

theorem dkeys_cons (k₀ : String) (v₀ : Value) (tl : Dict) :
    dkeys ((k₀, v₀) :: tl) = k₀ :: dkeys tl := rfl

theorem dget_ne_none_iff (d : Dict) (k : String) :
    dget d k ≠ none ↔ k ∈ dkeys d := by
  induction d with
  | nil => simp [dkeys_nil]
  | cons hd tl ih =>
    obtain ⟨k₀, v₀⟩ := hd
    by_cases h : k₀ = k
    · subst h; simp [dkeys_cons]
    · have hne : k ≠ k₀ := fun he => h he.symm
      simp [dkeys_cons, h, hne, ih]

theorem dkeys_dset (d : Dict) (k : String) (v : Value) :
    dkeys (dset d k v) = if k ∈ dkeys d then dkeys d else dkeys d ++ [k] := by
  induction d with
  | nil => simp [dset, dkeys_nil, dkeys_cons]
  | cons hd tl ih =>
    obtain ⟨k₀, v₀⟩ := hd
    by_cases h : k₀ = k
    · subst h; simp [dset, dkeys_cons]
    · have hne : k ≠ k₀ := fun he => h he.symm
      simp only [dset, if_neg h, dkeys_cons, ih]
      by_cases hk : k ∈ dkeys tl
      · simp [hk, hne]
      · simp [hk, hne]

theorem nodup_dkeys_dset (d : Dict) (k : String) (v : Value)
    (h : (dkeys d).Nodup) : (dkeys (dset d k v)).Nodup := by
  rw [dkeys_dset]
  by_cases hk : k ∈ dkeys d
  · simpa [hk] using h
  · simp [hk, List.nodup_append, h]

theorem findDoc_mem (docs : List (Nat × Dict)) (oid : Nat) (d : Dict)
    (h : findDoc docs oid = some d) : (oid, d) ∈ docs := by
  induction docs with
  | nil => simp [findDoc] at h
  | cons hd tl ih =>
    obtain ⟨i, d₀⟩ := hd
    by_cases hi : i = oid
    · subst hi; simp [findDoc] at h; simp [h]
    · simp only [findDoc, if_neg hi] at h
      exact List.mem_cons_of_mem _ (ih h)

theorem findDoc_append_left (l₁ l₂ : List (Nat × Dict)) (oid : Nat) (d : Dict)
    (h : findDoc l₁ oid = some d) : findDoc (l₁ ++ l₂) oid = some d := by
  induction l₁ with
  | nil => simp [findDoc] at h
  | cons hd tl ih =>
    obtain ⟨i, d₀⟩ := hd
    by_cases hi : i = oid
    · simp only [findDoc, if_pos hi] at h ⊢; exact h
    · simp only [findDoc, if_neg hi] at h ⊢
      exact ih h

theorem updateFirst_map_fst (docs : List (Nat × Dict)) (oid : Nat) (f : Dict → Dict) :
    (updateFirst oid f docs).map Prod.fst = docs.map Prod.fst := by
  induction docs with
  | nil => rfl
  | cons hd tl ih =>
    obtain ⟨i, d⟩ := hd
    by_cases h : i = oid <;> simp [updateFirst, h, ih]

theorem mem_updateFirst (docs : List (Nat × Dict)) (oid : Nat) (f : Dict → Dict)
    (p : Nat × Dict) (hp : p ∈ updateFirst oid f docs) :
    p ∈ docs ∨ ∃ d, (oid, d) ∈ docs ∧ p = (oid, f d) := by
  induction docs with
  | nil => simp [updateFirst] at hp
  | cons hd tl ih =>
    obtain ⟨i, d₀⟩ := hd
    by_cases h : i = oid
    · simp only [updateFirst, if_pos h, List.mem_cons] at hp
      subst h
      exact hp.elim
        (fun hpe => Or.inr ⟨d₀, List.mem_cons_self _ _, hpe⟩)
        (fun hpm => Or.inl (List.mem_cons_of_mem _ hpm))
    · simp only [updateFirst, if_neg h, List.mem_cons] at hp
      refine hp.elim (fun hpe => Or.inl (by simp [hpe])) (fun hpm => ?_)
      rcases ih hpm with hmem | ⟨d, hd, hpd⟩
      · exact Or.inl (List.mem_cons_of_mem _ hmem)
      · exact Or.inr ⟨d, List.mem_cons_of_mem _ hd, hpd⟩

theorem deleteFirst_sublist (docs : List (Nat × Dict)) (oid : Nat) :
    List.Sublist (deleteFirst oid docs) docs := by
  induction docs with
  | nil => simp [deleteFirst]
  | cons hd tl ih =>
    obtain ⟨i, d⟩ := hd
    by_cases h : i = oid
    · simp only [deleteFirst, if_pos h]
      exact (List.Sublist.refl tl).cons (i, d)
    · simp only [deleteFirst, if_neg h]
      exact ih.cons₂ (i, d)

theorem findDoc_deleteFirst_other (docs : List (Nat × Dict)) (oid oid' : Nat)
    (hne : oid ≠ oid') :
    findDoc (deleteFirst oid' docs) oid = findDoc docs oid := by
  induction docs with
  | nil => rfl
  | cons hd tl ih =>
    obtain ⟨i, d⟩ := hd
    by_cases h : i = oid'
    · subst h
      have : i ≠ oid := fun he => hne he.symm
      simp [deleteFirst, findDoc, this]
    · simp [deleteFirst, findDoc, h, ih]

theorem findDoc_eq_none_of_not_mem (docs : List (Nat × Dict)) (oid : Nat)
    (h : oid ∉ docs.map Prod.fst) : findDoc docs oid = none := by
  induction docs with
  | nil => rfl
  | cons hd tl ih =>
    obtain ⟨i, d⟩ := hd
    simp only [List.map_cons, List.mem_cons, not_or] at h
    have hne : i ≠ oid := fun he => h.1 he.symm
    simp only [findDoc, if_neg hne]
    exact ih h.2

theorem findDoc_deleteFirst_self (docs : List (Nat × Dict)) (oid : Nat)
    (hnd : (docs.map Prod.fst).Nodup) :
    findDoc (deleteFirst oid docs) oid = none := by
  induction docs with
  | nil => rfl
  | cons hd tl ih =>
    obtain ⟨i, d⟩ := hd
    simp only [List.map_cons, List.nodup_cons] at hnd
    by_cases h : i = oid
    · subst h
      simp only [deleteFirst, if_pos rfl]
      exact findDoc_eq_none_of_not_mem tl i hnd.1
    · simp only [deleteFirst, if_neg h, findDoc, if_neg h]
      exact ih hnd.2

/-- Field lookup on a freshly created document: `id`, `updated_at` and
`created_at` are store-managed; every other key reads the caller payload. -/
theorem dget_create_document (t : Nat) (data : Dict) (db : DB) (k : String) :
    dget (BackendV.create_document t data db).1 k
      = if k = "id" then some (.str (encodeId db.nextId))
        else if k = "updated_at" then some (.time t)
        else if k = "created_at" then some (.time t)
        else dget data k := by
  have hform : (BackendV.create_document t data db).1
      = dset (dset (dset data "created_at" (.time t)) "updated_at" (.time t)) "id"
          (.str (encodeId db.nextId)) := rfl
  rw [hform]
  by_cases h1 : k = "id"
  · subst h1
    simp [dget_dset_same]
  · rw [dget_dset_other _ _ _ _ (fun he => h1 he.symm), if_neg h1]
    by_cases h2 : k = "updated_at"
    · subst h2
      simp [dget_dset_same]
    · rw [dget_dset_other _ _ _ _ (fun he => h2 he.symm), if_neg h2]
      by_cases h3 : k = "created_at"
      · subst h3
        simp [dget_dset_same]
      · rw [dget_dset_other _ _ _ _ (fun he => h3 he.symm), if_neg h3]

/-- C4 counterexample: the claim's "created_at == updated_at" fails for
order creation in the `src/main.py` variant: its two separate
`datetime.now` reads can differ (here instants 0 and 1), and then the
stored order has created_at 0 but updated_at 1. -/
theorem C4_counterexample :
    dget (okPayload (MainV.create_order 0 1 ⟨[], "n", "e", "a"⟩ ⟨[], 0, 0⟩).1)
      "created_at" = some (.time 0) ∧
    dget (okPayload (MainV.create_order 0 1 ⟨[], "n", "e", "a"⟩ ⟨[], 0, 0⟩).1)
      "updated_at" = some (.time 1) ∧
    Value.time 0 ≠ Value.time 1 :=
  ⟨rfl, rfl, by decide⟩

/-- C4 (amended): create-then-get returns the created record with every
caller-supplied field intact and both timestamps set to the single clock
reading of the call (so created_at == updated_at, at or after call start)
for backend `create_document` (hence backend product and order creation)
and for `src/main.py` product creation; `src/main.py` order creation reads
the clock twice, so there only created_at ≤ updated_at holds. -/
theorem C4_create_then_get (tstart t t₁ t₂ : Nat) (data : Dict)
    (o : BackendV.OrderCreate) (o' : MainV.OrderIn) (db : DB)
    (hstart : tstart ≤ t)
    (hfresh : findDoc db.docs db.nextId = none)
    (hrange : db.nextId < 16 ^ 24)
    (h12 : t₁ ≤ t₂) :
    BackendV.get_document (encodeId db.nextId) (BackendV.create_document t data db).2
      = some (BackendV.create_document t data db).1 ∧
    dget (BackendV.create_document t data db).1 "created_at" = some (.time t) ∧
    dget (BackendV.create_document t data db).1 "updated_at" = some (.time t) ∧
    tstart ≤ t ∧
    (∀ k, k ≠ "created_at" → k ≠ "updated_at" → k ≠ "id" →
      dget (BackendV.create_document t data db).1 k = dget data k) ∧
    okPayload (MainV.create_product t data db).1 = (BackendV.create_document t data db).1 ∧
    dget (okPayload (BackendV.create_order t o db).1) "created_at" = some (.time t) ∧
    dget (okPayload (BackendV.create_order t o db).1) "updated_at" = some (.time t) ∧
    dget (okPayload (MainV.create_order t₁ t₂ o' db).1) "created_at" = some (.time t₁) ∧
    dget (okPayload (MainV.create_order t₁ t₂ o' db).1) "updated_at" = some (.time t₂) ∧
    t₁ ≤ t₂ := by
  refine ⟨?_, ?_, ?_, hstart, ?_, rfl, ?_, ?_, rfl, rfl, h12⟩
  · have hp := parse_encodeId db.nextId hrange
    have hf := findDoc_append_right db.docs db.nextId
      (dset (dset data "created_at" (.time t)) "updated_at" (.time t)) hfresh
    simp [BackendV.get_document, BackendV.create_document, hp, hf]
  · simp [dget_create_document]
  · simp [dget_create_document]
  · intro k h1 h2 h3
    rw [dget_create_document, if_neg h3, if_neg h2, if_neg h1]
  · have : okPayload (BackendV.create_order t o db).1
        = (BackendV.create_document t
            [("items", .items o.items), ("customer_name", .str o.customer_name),
             ("customer_email", .str o.customer_email), ("address", .str o.address),
             ("status", .str o.status), ("total", .rat (orderTotal o.items))] db).1 := rfl
    rw [this, dget_create_document]
    simp
  · have : okPayload (BackendV.create_order t o db).1
        = (BackendV.create_document t
            [("items", .items o.items), ("customer_name", .str o.customer_name),
             ("customer_email", .str o.customer_email), ("address", .str o.address),
             ("status", .str o.status), ("total", .rat (orderTotal o.items))] db).1 := rfl
    rw [this, dget_create_document]
    simp

/-- C4 witness: the amended statement applied on an empty store with clock
readings 1 (product create) and 2 ≤ 3 (the two reads of an order create). -/
theorem C4_create_then_get_witness :
    dget (BackendV.create_document 1 [("name", Value.str "x")] ⟨[], 0, 0⟩).1 "created_at"
      = some (.time 1) :=
  (C4_create_then_get 0 1 2 3 [("name", .str "x")] ⟨[], "n", "e", "a", "pending"⟩
    ⟨[], "n", "e", "a"⟩ ⟨[], 0, 0⟩ (by decide) rfl (by norm_num) (by decide)).2.1

/-- C5: a partial update on an existing record rewrites exactly the
supplied fields, stamps `updated_at` with the (monotone) clock reading,
leaves every other stored field unchanged, and both variants return the
full updated record. -/
theorem C5_partial_update (t u : Nat) (s : String) (oid : Nat) (payload old : Dict)
    (db : DB)
    (hparse : parseObjectId s = some oid)
    (hfind : findDoc db.docs oid = some old)
    (hnd : (dkeys payload).Nodup)
    (hprior : dget old "updated_at" = some (.time u))
    (hmono : u ≤ t) :
    (BackendV.update_document t s payload db).1
      = some (dset (setAll (dset payload "updated_at" (.time t)) old) "id"
          (.str (encodeId oid))) ∧
    (∀ k, k ∉ dkeys payload → k ≠ "updated_at" →
      dget (setAll (dset payload "updated_at" (.time t)) old) k = dget old k) ∧
    (∀ k, k ∈ dkeys payload → k ≠ "updated_at" →
      dget (setAll (dset payload "updated_at" (.time t)) old) k = dget payload k) ∧
    dget (setAll (dset payload "updated_at" (.time t)) old) "updated_at"
      = some (.time t) ∧
    u ≤ t ∧
    MainV.update_product t s payload db
      = (.ok (dset (setAll (dset payload "updated_at" (.time t)) old) "id"
          (.str (encodeId oid))),
         ⟨updateFirst oid (setAll (dset payload "updated_at" (.time t))) db.docs,
          db.nextId, t⟩) ∧
    BackendV.update_product t s payload db
      = (.ok (dset (setAll (dset payload "updated_at" (.time t)) old) "id"
          (.str (encodeId oid))),
         ⟨updateFirst oid (setAll (dset payload "updated_at" (.time t))) db.docs,
          db.nextId, t⟩) := by
  have hndd : (dkeys (dset payload "updated_at" (.time t))).Nodup :=
    nodup_dkeys_dset _ _ _ hnd
  refine ⟨?_, ?_, ?_, ?_, hmono, ?_, ?_⟩
  · simp [BackendV.update_document, BackendV.get_document, hparse,
      findDoc_updateFirst_same, hfind]
  · intro k hk1 hk2
    apply dget_setAll_not_mem
    rw [dkeys_dset]
    by_cases h : "updated_at" ∈ dkeys payload
    · simpa [h] using hk1
    · simp [h, List.mem_append, hk1, hk2]
  · intro k hk hk2
    have h1 : dget (dset payload "updated_at" (.time t)) k = dget payload k :=
      dget_dset_other payload "updated_at" k _ (fun he => hk2 he.symm)
    have h2 : dget (dset payload "updated_at" (.time t)) k ≠ none := by
      rw [h1]
      exact (dget_ne_none_iff payload k).mpr hk
    rw [dget_setAll_mem _ old k hndd h2, h1]
  · have h2 : dget (dset payload "updated_at" (.time t)) "updated_at" ≠ none := by
      rw [dget_dset_same]
      simp
    rw [dget_setAll_mem _ old _ hndd h2, dget_dset_same]
  · simp [MainV.update_product, hparse, hfind]
  · simp [BackendV.update_product, BackendV.update_document, BackendV.get_document,
      hparse, findDoc_updateFirst_same, hfind]

/-- C5 witness: update of the single field `name` of a concrete stored
record, at clock reading 1 against a prior `updated_at` of 0. -/
theorem C5_partial_update_witness :
    dget (setAll (dset [("name", Value.str "b")] "updated_at" (Value.time 1))
        [("name", Value.str "a"), ("created_at", Value.time 0),
         ("updated_at", Value.time 0)]) "updated_at"
      = some (Value.time 1) :=
  (C5_partial_update 1 0 "000000000000000000000000" 0 [("name", Value.str "b")]
    [("name", Value.str "a"), ("created_at", Value.time 0), ("updated_at", Value.time 0)]
    ⟨[(0, [("name", Value.str "a"), ("created_at", Value.time 0),
       ("updated_at", Value.time 0)])], 1, 0⟩
    (by decide) rfl (by decide) rfl (by decide)).2.2.2.1

/-- One well-formed adapter operation preserves the persistence invariant. -/
theorem storeInv_applyOp (db : DB) (op : Op) (hwf : WFOp db op)
    (hinv : StoreInv db) : StoreInv (applyOp db op) := by
  obtain ⟨hbound, hnd, hts⟩ := hinv
  cases op with
  | create t payload =>
    have hclock : db.clock ≤ t := hwf
    have heq : applyOp db (.create t payload)
        = ⟨db.docs ++ [(db.nextId,
            dset (dset payload "created_at" (.time t)) "updated_at" (.time t))],
           db.nextId + 1, t⟩ := rfl
    rw [heq]
    refine ⟨?_, ?_, ?_⟩
    · intro p hp
      rcases List.mem_append.mp hp with h | h
      · exact Nat.lt_succ_of_lt (hbound p h)
      · simp only [List.mem_singleton] at h
        rw [h]
        exact Nat.lt_succ_self _
    · show (List.map Prod.fst (db.docs ++ _)).Nodup
      rw [List.map_append]
      refine List.Nodup.append hnd (List.nodup_singleton _) ?_
      intro a ha hb
      simp only [List.map_cons, List.map_nil, List.mem_singleton] at hb
      subst hb
      rcases List.mem_map.mp ha with ⟨p, hp, hfst⟩
      have := hbound p hp
      omega
    · intro p hp
      rcases List.mem_append.mp hp with h | h
      · obtain ⟨c, u, hc, hu, hcu, huc⟩ := hts p h
        exact ⟨c, u, hc, hu, hcu, le_trans huc hclock⟩
      · simp only [List.mem_singleton] at h
        rw [h]
        refine ⟨t, t, ?_, ?_, le_refl t, le_refl t⟩
        · rw [show ((db.nextId, dset (dset payload "created_at" (.time t))
              "updated_at" (.time t)) : Nat × Dict).2
              = dset (dset payload "created_at" (.time t)) "updated_at" (.time t) from rfl]
          rw [dget_dset_other _ _ _ _ (by decide), dget_dset_same]
        · exact dget_dset_same _ _ _
  | update t id payload =>
    obtain ⟨hclock, hcnot, hpnd⟩ := hwf
    cases hparse : parseObjectId id with
    | none =>
      have heq : applyOp db (.update t id payload) = db := by
        simp [applyOp, BackendV.update_document, hparse]
      rw [heq]
      exact ⟨hbound, hnd, hts⟩
    | some oid =>
      have heq : applyOp db (.update t id payload)
          = ⟨updateFirst oid (setAll (dset payload "updated_at" (.time t))) db.docs,
             db.nextId, t⟩ := by
        simp [applyOp, BackendV.update_document, hparse]
      rw [heq]
      refine ⟨?_, ?_, ?_⟩
      · intro p hp
        rcases mem_updateFirst _ _ _ p hp with h | ⟨d, hd, hpd⟩
        · exact hbound p h
        · rw [hpd]
          exact hbound (oid, d) hd
      · show (List.map Prod.fst (updateFirst _ _ _)).Nodup
        rw [updateFirst_map_fst]
        exact hnd
      · intro p hp
        rcases mem_updateFirst _ _ _ p hp with h | ⟨d, hd, hpd⟩
        · obtain ⟨c, u, hc, hu, hcu, huc⟩ := hts p h
          exact ⟨c, u, hc, hu, hcu, le_trans huc hclock⟩
        · obtain ⟨c, u, hc, hu, hcu, huc⟩ := hts (oid, d) hd
          rw [hpd]
          refine ⟨c, t, ?_, ?_, le_trans hcu (le_trans huc hclock), le_refl t⟩
          · show dget (setAll (dset payload "updated_at" (.time t)) d) "created_at"
              = some (.time c)
            rw [dget_setAll_not_mem _ _ _ ?_]
            · exact hc
            · rw [dkeys_dset]
              by_cases hm : "updated_at" ∈ dkeys payload
              · simpa [hm] using hcnot
              · simp [hm, List.mem_append, hcnot]
          · show dget (setAll (dset payload "updated_at" (.time t)) d) "updated_at"
              = some (.time t)
            have h2 : dget (dset payload "updated_at" (.time t)) "updated_at" ≠ none := by
              rw [dget_dset_same]
              simp
            rw [dget_setAll_mem _ _ _ (nodup_dkeys_dset _ _ _ hpnd) h2, dget_dset_same]
  | delete id =>
    cases hparse : parseObjectId id with
    | none =>
      have heq : applyOp db (.delete id) = db := by
        simp [applyOp, BackendV.delete_document, hparse]
      rw [heq]
      exact ⟨hbound, hnd, hts⟩
    | some oid =>
      have heq : applyOp db (.delete id)
          = ⟨deleteFirst oid db.docs, db.nextId, db.clock⟩ := by
        simp [applyOp, BackendV.delete_document, hparse]
      rw [heq]
      have hsub := deleteFirst_sublist db.docs oid
      refine ⟨?_, ?_, ?_⟩
      · intro p hp
        exact hbound p (hsub.subset hp)
      · exact hnd.sublist (hsub.map Prod.fst)
      · intro p hp
        exact hts p (hsub.subset hp)

/-- A well-formed sequence of adapter operations preserves the invariant. -/
theorem storeInv_applyOps (db : DB) (ops : List Op) (hinv : StoreInv db)
    (hwf : WFSeq db ops) : StoreInv (applyOps db ops) := by
  induction ops generalizing db with
  | nil => exact hinv
  | cons op ops ih =>
    obtain ⟨h1, h2⟩ := hwf
    exact ih (applyOp db op) (storeInv_applyOp db op h1 hinv) h2

/-- No well-formed operation ever changes the `created_at` of a record that
survives it. -/
theorem created_at_stable (db : DB) (op : Op) (oid : Nat) (d d' : Dict)
    (hwf : WFOp db op) (hinv : StoreInv db)
    (h1 : findDoc db.docs oid = some d)
    (h2 : findDoc (applyOp db op).docs oid = some d') :
    dget d' "created_at" = dget d "created_at" := by
  obtain ⟨hbound, hnd, hts⟩ := hinv
  cases op with
  | create t payload =>
    have h2' : findDoc (db.docs ++ [(db.nextId,
        dset (dset payload "created_at" (.time t)) "updated_at" (.time t))]) oid
        = some d' := h2
    rw [findDoc_append_left db.docs _ oid d h1] at h2'
    injection h2' with h
    rw [h]
  | update t id payload =>
    obtain ⟨hclock, hcnot, hpnd⟩ := hwf
    cases hparse : parseObjectId id with
    | none =>
      have heq : applyOp db (.update t id payload) = db := by
        simp [applyOp, BackendV.update_document, hparse]
      rw [heq, h1] at h2
      injection h2 with h
      rw [← h]
    | some oid' =>
      have heq : (applyOp db (.update t id payload)).docs
          = updateFirst oid' (setAll (dset payload "updated_at" (.time t))) db.docs := by
        simp [applyOp, BackendV.update_document, hparse]
      rw [heq] at h2
      by_cases hoo : oid' = oid
      · subst hoo
        rw [findDoc_updateFirst_same, h1] at h2
        injection h2 with h
        rw [← h]
        rw [dget_setAll_not_mem _ _ _ ?_]
        rw [dkeys_dset]
        by_cases hm : "updated_at" ∈ dkeys payload
        · simpa [hm] using hcnot
        · simp [hm, List.mem_append, hcnot]
      · rw [findDoc_updateFirst_other _ _ _ _ hoo, h1] at h2
        injection h2 with h
        rw [← h]
  | delete id =>
    cases hparse : parseObjectId id with
    | none =>
      have heq : applyOp db (.delete id) = db := by
        simp [applyOp, BackendV.delete_document, hparse]
      rw [heq, h1] at h2
      injection h2 with h
      rw [← h]
    | some oid' =>
      have heq : (applyOp db (.delete id)).docs = deleteFirst oid' db.docs := by
        simp [applyOp, BackendV.delete_document, hparse]
      rw [heq] at h2
      by_cases hoo : oid' = oid
      · subst hoo
        rw [findDoc_deleteFirst_self _ _ hnd] at h2
        exact absurd h2 (by simp)
      · rw [findDoc_deleteFirst_other _ _ _ (fun he => hoo he.symm), h1] at h2
        injection h2 with h
        rw [← h]

/-- C9: along any well-formed operation sequence every persisted record
keeps `created_at ≤ updated_at ≤ clock` with unique store-assigned keys
(the invariant), `created_at` is written at creation (equal to
`updated_at` there) and never changed by any later create/update/delete,
and every update refreshes `updated_at` to its own clock reading. -/
theorem C9_timestamp_lifecycle (db : DB) (ops : List Op)
    (hinv : StoreInv db) (hwf : WFSeq db ops) :
    StoreInv (applyOps db ops) ∧
    (∀ op oid d d', WFOp db op → findDoc db.docs oid = some d →
      findDoc (applyOp db op).docs oid = some d' →
      dget d' "created_at" = dget d "created_at") ∧
    (∀ t payload,
      dget (BackendV.create_document t payload db).1 "created_at" = some (.time t) ∧
      dget (BackendV.create_document t payload db).1 "updated_at" = some (.time t)) ∧
    (∀ t id payload oid d, parseObjectId id = some oid →
      findDoc db.docs oid = some d → (dkeys payload).Nodup →
      findDoc (applyOp db (.update t id payload)).docs oid
        = some (setAll (dset payload "updated_at" (.time t)) d) ∧
      dget (setAll (dset payload "updated_at" (.time t)) d) "updated_at"
        = some (.time t)) := by
  refine ⟨storeInv_applyOps db ops hinv hwf, ?_, ?_, ?_⟩
  · intro op oid d d' hop hf1 hf2
    exact created_at_stable db op oid d d' hop hinv hf1 hf2
  · intro t payload
    constructor <;> simp [dget_create_document]
  · intro t id payload oid d hparse hfind hpnd
    constructor
    · have heq : (applyOp db (.update t id payload)).docs
          = updateFirst oid (setAll (dset payload "updated_at" (.time t))) db.docs := by
        simp [applyOp, BackendV.update_document, hparse]
      rw [heq, findDoc_updateFirst_same, hfind]
      rfl
    · have h2 : dget (dset payload "updated_at" (.time t)) "updated_at" ≠ none := by
        rw [dget_dset_same]
        simp
      rw [dget_setAll_mem _ _ _ (nodup_dkeys_dset _ _ _ hpnd) h2, dget_dset_same]

/-- C9 witness: the lifecycle statement on an empty store running a single
well-formed create at clock reading 1. -/
theorem C9_timestamp_lifecycle_witness :
    StoreInv (applyOps ⟨[], 0, 0⟩ [Op.create 1 [("name", Value.str "x")]]) :=
  (C9_timestamp_lifecycle ⟨[], 0, 0⟩ [Op.create 1 [("name", Value.str "x")]]
    ⟨by simp, by simp, by simp⟩ ⟨Nat.zero_le 1, trivial⟩).1
